import Mathlib

/-!
Shallow embedding of `src/index.ts` (qq-neural-anime-tg): the session
registry (`addUserSession` admission check, the `findIndex`/`splice`
release), the remote-service client `qqRequest`, the download helper
`qqDownload`, and the orchestration `processUserSession`.

Modelling conventions, faithful to the JavaScript source:
- An axios call either resolves with a response object or rejects with an
  error carrying an optional response (`e.response`).  This is the
  `HttpAttempt` type; an environment supplies one `HttpAttempt` per loop
  iteration (indexed by how many requests have been issued so far).
- A response body slot is `Option β`: `some b` stands for a truthy body,
  `none` for an absent or falsy one (`undefined`, `null`, empty string),
  matching the truthiness tests `if (response?.data)` and `if (data?.extra)`
  in the source.
- `JSON.parse` of the `extra` field is modelled by storing the already
  parsed `ExtraData` value in the payload; a payload whose `extra` string
  is absent or falsy has `extra = none`.
- JavaScript numbers used as counters are `Int` where the source can
  decrement below zero (`retry--`), `Nat` elsewhere.
-/

namespace QQBot

/-- Outcome of one axios request: `ok resp` models a resolved promise,
`err resp` models a rejected promise whose `AxiosError` carries
`e.response = resp` (possibly absent). -/
inductive HttpAttempt (α : Type) where
  | ok (resp : α)
  | err (resp : Option α)
  deriving DecidableEq, Repr

/-- Whether the attempt rejected (threw). -/
def HttpAttempt.isErr {α : Type} : HttpAttempt α → Bool
  | .ok _ => false
  | .err _ => true

/-- The response object visible after the try/catch of `qqRequest` and
`qqDownload`: both branches assign `response` (line 24 resp. 47 assigns the
resolved response, line 47 resp. 92 assigns `e.response`). -/
def HttpAttempt.respOf {α : Type} : HttpAttempt α → Option α
  | .ok r => some r
  | .err r => r

/-- A binary download response: `data` is the `arraybuffer` body, `none`
when absent or falsy. Bodies are abstracted as strings of bytes. -/
structure DResp where
  data : Option String
  deriving DecidableEq, Repr

/-- Body of the response produced by an attempt, after the try/catch of
`qqDownload` (`response?.data`). -/
def dlDataOf (a : HttpAttempt DResp) : Option String :=
  (a.respOf).bind DResp.data

/-- The retry loop of `qqDownload` (src/index.ts lines 84-99): each
iteration issues one request, overwrites `response` with the resolved
response or with `e.response`, and breaks when `response?.data` is truthy.
`fuel` is the remaining iteration budget (`retry < 100` gives 100), `idx`
indexes the attempt stream, `resp` is the current value of `response`. -/
def dlGo (att : Nat → HttpAttempt DResp) : Nat → Nat → Option DResp → Option DResp
  | 0, _, resp => resp
  | fuel + 1, idx, _ =>
    let resp' := (att idx).respOf
    if (resp'.bind DResp.data).isSome then resp'
    else dlGo att fuel (idx + 1) resp'

/-- `qqDownload` (src/index.ts lines 82-102): runs the retry loop and
returns `response?.data`.  Note the source never throws here: on
exhaustion it returns the final (absent) body. -/
def qqDownload (att : Nat → HttpAttempt DResp) : Option String :=
  (dlGo att 100 0 none).bind DResp.data

/-- The parsed `extra` envelope (`JSON.parse(data.extra)` in line 72):
a JSON object with `video_urls` and `img_urls` string lists. -/
structure ExtraData where
  video_urls : List String
  img_urls : List String
  deriving DecidableEq, Repr

/-- The JSON payload of a `qqRequest` response (`response?.data`): the
fields tested by the classification, lines 52-68.  `msg` and `code` are
`none` when the field is absent; `extra` is `some` exactly when the
source string is present and truthy, holding its parsed value. -/
structure RespData where
  msg : Option String
  code : Option Int
  extra : Option ExtraData
  deriving DecidableEq, Repr

/-- A response object of the `qqRequest` POST: its `data` slot. -/
structure QQResp where
  data : Option RespData
  deriving DecidableEq, Repr

/-- Fixed backoff interval slept after a rate-limited response
(line 59: `setTimeout(resolve, 3000)`), in milliseconds. -/
def rlBackoffMs : Nat := 3000

/-- State of the `qqRequest` retry loop (lines 20-22): the loop counter
`retry` (an `Int`, since line 57 decrements it), the index of the next
attempt in the stream, and the persisted `response` and `data` variables.
`nonRL` and `sleptMs` are observation counters that do not influence
control flow: `nonRL` counts issued attempts whose payload was not
classified as rate-limited, `sleptMs` accumulates the backoff sleeps. -/
structure QQState where
  retry : Int
  idx : Nat
  response : Option QQResp
  data : Option RespData
  nonRL : Nat
  sleptMs : Nat
  deriving DecidableEq, Repr

/-- The initial state of the loop: `retry = 0`, no response yet. -/
def qqInit : QQState := ⟨0, 0, none, none, 0, 0⟩

/-- Terminal outcome of `qqRequest`: the two thrown classifications
(lines 53 and 63), the parsed success result (lines 73-76, `video` is
`video_urls[0]`, `img` is `img_urls[1]`, each `none` when the index is out
of bounds), and the attempt-exhaustion throw (line 78) embedding
`response?.data`. -/
inductive QQResult where
  | censorship
  | noFace
  | success (video : Option String) (img : Option String)
  | exhausted (lastData : Option RespData)
  deriving DecidableEq, Repr

/-- Result of one iteration of the loop body (lines 23-68): a `throw`
(lines 53, 63), a `break` out of the loop (line 67), or falling through to
the next iteration. -/
inductive QQStepRes where
  | thrown (r : QQResult) (st : QQState)
  | brk (st : QQState)
  | next (st : QQState)
  deriving DecidableEq, Repr

/-- One iteration of the `qqRequest` body (lines 23-68): issue the POST,
set `response` (try assigns the resolved response, catch assigns
`e.response`), read `data = response?.data`, then run the four
classification tests in source order.  The `VOLUMN_LIMIT` branch does not
terminate the iteration: it decrements `retry` and sleeps, and the
`code === 1001` and `extra` tests still run afterwards. -/
def qqStep (att : Nat → HttpAttempt QQResp) (st : QQState) : QQStepRes :=
  let response := (att st.idx).respOf
  let data := response.bind QQResp.data
  if (data.bind RespData.msg) = some "IMG_ILLEGAL" then
    .thrown .censorship
      { st with idx := st.idx + 1, response := response, data := data,
                nonRL := st.nonRL + 1 }
  else
    let rl := (data.bind RespData.msg) = some "VOLUMN_LIMIT"
    let retry' := if rl then st.retry - 1 else st.retry
    let sleptMs' := if rl then st.sleptMs + rlBackoffMs else st.sleptMs
    let nonRL' := if rl then st.nonRL else st.nonRL + 1
    if (data.bind RespData.code) = some 1001 then
      .thrown .noFace
        { st with idx := st.idx + 1, response := response, data := data,
                  retry := retry', sleptMs := sleptMs', nonRL := nonRL' }
    else if (data.bind RespData.extra).isSome then
      .brk
        { st with idx := st.idx + 1, response := response, data := data,
                  retry := retry', sleptMs := sleptMs', nonRL := nonRL' }
    else
      .next
        { st with idx := st.idx + 1, response := response, data := data,
                  retry := retry' + 1, sleptMs := sleptMs', nonRL := nonRL' }

/-- How the `qqRequest` loop ended: a throw from inside the body, or
normal continuation to the post-loop code (via `break` or via the
`retry < 100` condition turning false). -/
inductive QQLoopExit where
  | thrown (r : QQResult)
  | finished
  deriving DecidableEq, Repr

/-- The `for (let retry = 0; retry < 100; retry++)` loop of `qqRequest`
(lines 22-69), driven by a fuel budget so that the embedding is total:
`none` means the fuel ran out while the loop was still iterating (which
the source allows, since rate-limited iterations never make progress on
`retry`). -/
def qqLoop (att : Nat → HttpAttempt QQResp) :
    Nat → QQState → Option (QQLoopExit × QQState)
  | 0, _ => none
  | fuel + 1, st =>
    if st.retry < 100 then
      match qqStep att st with
      | .thrown r st' => some (.thrown r, st')
      | .brk st' => some (.finished, st')
      | .next st' => qqLoop att fuel st'
    else
      some (.finished, st)

/-- The post-loop code of `qqRequest` (lines 71-79): if the persisted
`data` has a truthy `extra`, parse it and return `video_urls[0]` and
`img_urls[1]`; otherwise throw an error embedding `response?.data`. -/
def qqPost (st : QQState) : QQResult :=
  match st.data.bind RespData.extra with
  | some extra => .success (extra.video_urls.get? 0) (extra.img_urls.get? 1)
  | none => .exhausted (st.response.bind QQResp.data)

/-- `qqRequest` (lines 17-80).  `imgData` is the base64 image placed in
the POST body; the responses it elicits are supplied by the attempt
stream `att`.  Returns the terminal outcome together with the final loop
state, or `none` when the fuel budget ran out mid-loop. -/
def qqRequest (_imgData : String) (att : Nat → HttpAttempt QQResp)
    (fuel : Nat) : Option (QQResult × QQState) :=
  match qqLoop att fuel qqInit with
  | none => none
  | some (.thrown r, st) => some (r, st)
  | some (.finished, st) => some (qqPost st, st)

/-- A `UserSession` entry of the `userSessions` array (lines 1-5, 104).
The `ctx` delivery handle is an opaque chat-platform object and carries no
registry-relevant data, so it is omitted from the registry model. -/
structure Session where
  userId : Int
  photoId : String
  deriving DecidableEq, Repr

/-- JavaScript `Array.prototype.findIndex`: index of the first element
satisfying `p`, or `-1` when none does (line 175). -/
def jsFindIndex {α : Type} (p : α → Bool) (l : List α) : Int :=
  match l.findIdx? p with
  | some i => (i : Int)
  | none => -1

/-- JavaScript `l.splice(start, 1)` (line 176), returning the mutated
array: a negative `start` counts from the end clamped at 0 (so
`splice(-1, 1)` removes the LAST element of a non-empty array), and a
`start` past the end removes nothing. -/
def spliceOne {α : Type} (l : List α) (start : Int) : List α :=
  let s : Nat := if start < 0 then l.length - start.natAbs else start.toNat
  l.take s ++ l.drop (s + 1)

/-- The session-release code at the end of `processUserSession`
(lines 175-176): `findIndex` the entry for `userId`, then `splice` one
element out at that index.  When no entry exists, `findIndex` gives `-1`
and `splice(-1, 1)` removes the last element of the array. -/
def releaseUser (userId : Int) (sessions : List Session) : List Session :=
  spliceOne sessions (jsFindIndex (fun s => s.userId == userId) sessions)

/-- The admission check of `addUserSession` (lines 180-193): reject when a
session for `userId` already exists (reply that the user is queued),
otherwise push a new entry.  Returns the admission flag and the updated
array. -/
def tryAdmit (userId : Int) (photoId : String) (sessions : List Session) :
    Bool × List Session :=
  match sessions.find? (fun s => s.userId == userId) with
  | some _ => (false, sessions)
  | none => (true, sessions ++ [⟨userId, photoId⟩])

/-- Whether the registry holds an entry for `userId`
(the `find` of line 181). -/
def userActive (userId : Int) (sessions : List Session) : Bool :=
  (sessions.find? (fun s => s.userId == userId)).isSome

/-- Number of registry entries for `userId`. -/
def countUser (userId : Int) (sessions : List Session) : Nat :=
  sessions.countP (fun s => s.userId == userId)

/-- The single-flight invariant: at most one entry per user identity. -/
def atMostOnePer (sessions : List Session) : Prop :=
  ∀ u : Int, countUser u sessions ≤ 1

/-- The source-image retry loop inside `processUserSession`
(lines 110-123).  Unlike `qqDownload`, the catch block (line 118) is empty:
a rejected attempt leaves the persisted `response` variable unchanged, so
`response` ends up `none` only if every executed attempt rejected. -/
def srcGo (att : Nat → HttpAttempt DResp) : Nat → Nat → Option DResp → Option DResp
  | 0, _, resp => resp
  | fuel + 1, idx, resp =>
    let resp' := match att idx with
      | .ok r => some r
      | .err _ => resp
    if (resp'.bind DResp.data).isSome then resp'
    else srcGo att fuel (idx + 1) resp'

/-- The value of `response` after the source-image loop (100 iterations,
starting with `response` undefined). -/
def srcFetch (att : Nat → HttpAttempt DResp) : Option DResp :=
  srcGo att 100 0 none

/-- `response.data.toString('base64')` (line 139): reading `.toString` of
an `undefined` body throws a `TypeError`; on a present body the base64
transcoding is modelled as the identity on the opaque byte string. -/
def bufToStringBase64 : Option String → Except Unit String
  | none => .error ()
  | some b => .ok b

/-- The error that terminates the try block of an orchestration run,
one constructor per throw site of `processUserSession` and its callees. -/
inductive RunErr where
  | getLink
  | loadPhoto
  | replyFail
  | typeErr
  | censorship
  | noFace
  | exhausted (lastData : Option RespData)
  deriving DecidableEq, Repr

/-- The external world of one `processUserSession` run: the result of
`ctx.telegram.getFileLink`, the response streams of the four HTTP loops,
and whether each awaited outbound reply resolves.  `errReplyOk` is
whether the error notification of line 170 resolves. -/
structure Env where
  fileLink : Except Unit String
  srcAtt : Nat → HttpAttempt DResp
  reply1Ok : Bool
  qqAtt : Nat → HttpAttempt QQResp
  reply2Ok : Bool
  videoAtt : Nat → HttpAttempt DResp
  imgAtt : Nat → HttpAttempt DResp
  replyPhotoOk : Bool
  replyVideoOk : Bool
  replyDoneOk : Bool
  errReplyOk : Bool

/-- The try block of `processUserSession` (lines 107-168), step by step in
source order: resolve the file link, run the source-image loop, guard
`if (!response)`, send the received notice, base64-encode the body, submit
via `qqRequest`, send the downloading notice, download both artifacts via
`qqDownload`, deliver them, send the completion notice.  Returns the two
artifact bodies on success, the thrown `RunErr` otherwise; `none` when the
`qqRequest` fuel ran out mid-loop. -/
def tryBlock (env : Env) (fuel : Nat) :
    Option (Except RunErr (Option String × Option String)) :=
  match env.fileLink with
  | .error _ => some (.error .getLink)
  | .ok _url =>
    match srcFetch env.srcAtt with
    | none => some (.error .loadPhoto)
    | some resp =>
      if env.reply1Ok = false then some (.error .replyFail)
      else
        match bufToStringBase64 resp.data with
        | .error _ => some (.error .typeErr)
        | .ok b64 =>
          match qqRequest b64 env.qqAtt fuel with
          | none => none
          | some (.censorship, _) => some (.error .censorship)
          | some (.noFace, _) => some (.error .noFace)
          | some (.exhausted d, _) => some (.error (.exhausted d))
          | some (.success _v _i, _) =>
            if env.reply2Ok = false then some (.error .replyFail)
            else
              let videoData := qqDownload env.videoAtt
              let imgData := qqDownload env.imgAtt
              if env.replyPhotoOk = false then some (.error .replyFail)
              else if env.replyVideoOk = false then some (.error .replyFail)
              else if env.replyDoneOk = false then some (.error .replyFail)
              else some (.ok (videoData, imgData))

/-- Observable outcome of one `processUserSession` run. -/
structure RunResult where
  ok : Bool
  err : Option RunErr
  errNotify : Option Bool
  releases : Nat
  registry : List Session
  deriving Repr

/-- `processUserSession` (lines 106-178): run the try block; on a throw,
the catch block (lines 169-173) sends one best-effort error notification
whose own rejection is swallowed by `.catch(e => e)`; then, on every path,
the session-release code of lines 175-176 runs exactly once.  `none` when
the `qqRequest` fuel ran out (the run is still in flight). -/
def processUserSession (env : Env) (fuel : Nat) (userId : Int)
    (registry : List Session) : Option RunResult :=
  match tryBlock env fuel with
  | none => none
  | some (.ok _artifacts) =>
    some ⟨true, none, none, 1, releaseUser userId registry⟩
  | some (.error e) =>
    some ⟨false, some e, some env.errReplyOk, 1, releaseUser userId registry⟩

/-! ## Lemmas about the `qqDownload` retry loop -/

theorem dlGo_skip (att : Nat → HttpAttempt DResp) (fuel idx : Nat)
    (resp : Option DResp) (h : dlDataOf (att idx) = none) :
    dlGo att (fuel + 1) idx resp = dlGo att fuel (idx + 1) ((att idx).respOf) := by
  unfold dlDataOf at h
  simp [dlGo, h]

theorem dlGo_hit (att : Nat → HttpAttempt DResp) (fuel idx : Nat)
    (resp : Option DResp) (b : String) (h : dlDataOf (att idx) = some b) :
    dlGo att (fuel + 1) idx resp = (att idx).respOf := by
  unfold dlDataOf at h
  simp [dlGo, h]

theorem dlGo_first_payload (att : Nat → HttpAttempt DResp) :
    ∀ (N fuel idx : Nat) (resp : Option DResp) (b : String), N < fuel →
      (∀ i, i < N → dlDataOf (att (idx + i)) = none) →
      dlDataOf (att (idx + N)) = some b →
      (dlGo att fuel idx resp).bind DResp.data = some b := by
  intro N
  induction N with
  | zero =>
    intro fuel idx resp b hf _ hb
    obtain ⟨f, rfl⟩ : ∃ f, fuel = f + 1 := ⟨fuel - 1, by omega⟩
    rw [dlGo_hit att f idx resp b (by simpa using hb)]
    simpa [dlDataOf] using hb
  | succ N ih =>
    intro fuel idx resp b hf hempty hb
    obtain ⟨f, rfl⟩ : ∃ f, fuel = f + 1 := ⟨fuel - 1, by omega⟩
    rw [dlGo_skip att f idx resp (by simpa using hempty 0 (Nat.succ_pos N))]
    have : idx + 1 + N = idx + (N + 1) := by omega
    exact ih f (idx + 1) ((att idx).respOf) b (by omega)
      (fun i hi => by
        have := hempty (i + 1) (by omega)
        simpa [Nat.add_assoc, Nat.add_comm 1 i] using this)
      (by rw [this]; exact hb)

theorem dlGo_all_empty (att : Nat → HttpAttempt DResp)
    (hall : ∀ i, dlDataOf (att i) = none) :
    ∀ (fuel idx : Nat) (resp : Option DResp), resp.bind DResp.data = none →
      (dlGo att fuel idx resp).bind DResp.data = none := by
  intro fuel
  induction fuel with
  | zero => intro idx resp h; simpa [dlGo] using h
  | succ f ih =>
    intro idx resp _
    rw [dlGo_skip att f idx resp (hall idx)]
    exact ih (idx + 1) ((att idx).respOf) (by simpa [dlDataOf] using hall idx)

/-- C2 (amended): `qqDownload` returns the first truthy payload obtained
within the 100-attempt ceiling; when every attempt yields an empty or
absent body (network errors included), it returns the absent final body
(`undefined`) — the source has no throw in `qqDownload`, so no
`DownloadError` failure occurs on exhaustion. -/
theorem qqDownload_first_payload_or_absent (att : Nat → HttpAttempt DResp) :
    (∀ (N : Nat) (b : String), N < 100 →
      (∀ i, i < N → dlDataOf (att i) = none) →
      dlDataOf (att N) = some b → qqDownload att = some b) ∧
    ((∀ i, dlDataOf (att i) = none) → qqDownload att = none) := by
  constructor
  · intro N b hN hempty hb
    unfold qqDownload
    exact dlGo_first_payload att N 100 0 none b hN
      (fun i hi => by simpa using hempty i hi) (by simpa using hb)
  · intro hall
    unfold qqDownload
    exact dlGo_all_empty att hall 100 0 none rfl

/-- Witness for `qqDownload_first_payload_or_absent`: two empty attempts
followed by a payload, which is returned. -/
theorem qqDownload_first_payload_witness :
    qqDownload (fun i => if i < 2 then .err none else .ok ⟨some "payload"⟩)
      = some "payload" :=
  (qqDownload_first_payload_or_absent
      (fun i => if i < 2 then .err none else .ok ⟨some "payload"⟩)).1
    2 "payload" (by decide) (by decide) (by decide)

/-- C2 (counterexample to the claim as stated): with every attempt a
network error carrying no response, the claim requires a `DownloadError`
failure, but `qqDownload` completes normally returning the absent body —
its definition has no error channel at all, mirroring the absence of any
throw in src/index.ts lines 82-102. -/
theorem qqDownload_exhaustion_no_error :
    qqDownload (fun _ => .err none) = none := by
  decide

/-- C9: when an attempt rejects with an error object whose `e.response`
carries a truthy body (an error page), the catch block installs that
response, the loop success condition `response?.data` holds, and the body
is returned as the fetched bytes. -/
theorem qqDownload_error_body_returned (att : Nat → HttpAttempt DResp)
    (k : Nat) (r : DResp) (b : String) (hk : k < 100)
    (hempty : ∀ i, i < k → dlDataOf (att i) = none)
    (herr : att k = .err (some r)) (hb : r.data = some b) :
    qqDownload att = some b := by
  unfold qqDownload
  exact dlGo_first_payload att k 100 0 none b hk
    (fun i hi => by simpa using hempty i hi)
    (by simp [dlDataOf, herr, HttpAttempt.respOf, hb])

/-- Witness for `qqDownload_error_body_returned`: the second attempt is an
HTTP error whose response body is returned. -/
theorem qqDownload_error_body_witness :
    qqDownload (fun i => if i = 1 then .err (some ⟨some "errbody"⟩) else .err none)
      = some "errbody" :=
  qqDownload_error_body_returned
    (fun i => if i = 1 then .err (some ⟨some "errbody"⟩) else .err none)
    1 ⟨some "errbody"⟩ "errbody" (by decide) (by decide) (by decide) (by decide)

/-! ## Session release and payload classification -/

/-- C3 (code bug): releasing a user with no active entry is NOT a no-op.
`findIndex` returns `-1` and `splice(-1, 1)` removes the LAST element of
the array: releasing user 1 against a registry holding only user 2 empties
the registry, and against a registry holding users 2 and 3 it removes
user 3's entry. -/
theorem releaseUser_absent_removes_last :
    releaseUser 1 [⟨2, "p"⟩] = [] ∧
    releaseUser 1 [⟨2, "p"⟩, ⟨3, "q"⟩] = [⟨2, "p"⟩] := by
  decide

/-- Canned payload carrying exactly the illegal-content marker. -/
def illegalPayload : RespData := ⟨some "IMG_ILLEGAL", none, none⟩

/-- Canned payload carrying exactly the rate-limit marker. -/
def ratePayload : RespData := ⟨some "VOLUMN_LIMIT", none, none⟩

/-- Canned payload carrying exactly the no-face marker (code 1001). -/
def noFacePayload : RespData := ⟨none, some 1001, none⟩

/-- Canned payload carrying exactly a usable result envelope. -/
def successPayload : RespData := ⟨none, none, some ⟨["v0", "v1"], ["i0", "i1"]⟩⟩

/-- Canned payload carrying none of the markers. -/
def unrecPayload : RespData := ⟨none, none, none⟩

/-- Attempt stream constantly answering with the given payload. -/
def cannedAtt (d : RespData) : Nat → HttpAttempt QQResp := fun _ => .ok ⟨some d⟩

/-- C6: on the five canned payloads each exhibiting exactly one marker, one
iteration of the `qqRequest` body yields exactly the corresponding outcome:
illegal content throws the censorship error; rate limit is a free retry
(loop counter back at 0, one 3000 ms backoff, no attempt consumed); code
1001 throws the no-face error; a result envelope breaks out of the loop
and the run returns the parsed URLs; an unrecognized payload consumes one
attempt and continues. -/
theorem qqStep_classification :
    qqStep (cannedAtt illegalPayload) qqInit
      = .thrown .censorship ⟨0, 1, some ⟨some illegalPayload⟩, some illegalPayload, 1, 0⟩ ∧
    qqStep (cannedAtt ratePayload) qqInit
      = .next ⟨0, 1, some ⟨some ratePayload⟩, some ratePayload, 0, 3000⟩ ∧
    qqStep (cannedAtt noFacePayload) qqInit
      = .thrown .noFace ⟨0, 1, some ⟨some noFacePayload⟩, some noFacePayload, 1, 0⟩ ∧
    qqStep (cannedAtt successPayload) qqInit
      = .brk ⟨0, 1, some ⟨some successPayload⟩, some successPayload, 1, 0⟩ ∧
    qqRequest "" (cannedAtt successPayload) 1
      = some (.success (some "v0") (some "i1"),
          ⟨0, 1, some ⟨some successPayload⟩, some successPayload, 1, 0⟩) ∧
    qqStep (cannedAtt unrecPayload) qqInit
      = .next ⟨1, 1, some ⟨some unrecPayload⟩, some unrecPayload, 1, 0⟩ := by
  decide

/-- C5: any payload whose `extra` field holds a usable result envelope
(and that does not match the two earlier terminal markers, which the
source tests first) breaks out of the retry loop at once, and `qqRequest`
returns the video URL at index 0 of `video_urls` and the image URL at
index 1 of `img_urls`, having issued exactly one attempt. -/
theorem qqRequest_success_envelope (att : Nat → HttpAttempt QQResp) (fuel : Nat) :
    (∀ (st : QQState) (d : RespData) (e : ExtraData),
      ((att st.idx).respOf).bind QQResp.data = some d →
      d.msg ≠ some "IMG_ILLEGAL" → d.code ≠ some 1001 → d.extra = some e →
      qqStep att st = .brk
        { st with idx := st.idx + 1, response := (att st.idx).respOf, data := some d,
                  retry := if d.msg = some "VOLUMN_LIMIT" then st.retry - 1 else st.retry,
                  sleptMs := if d.msg = some "VOLUMN_LIMIT" then st.sleptMs + rlBackoffMs
                             else st.sleptMs,
                  nonRL := if d.msg = some "VOLUMN_LIMIT" then st.nonRL else st.nonRL + 1 }) ∧
    (∀ (d : RespData) (e : ExtraData) (img : String),
      ((att 0).respOf).bind QQResp.data = some d →
      d.msg ≠ some "IMG_ILLEGAL" → d.code ≠ some 1001 → d.extra = some e →
      (qqRequest img att (fuel + 1)).map (fun p => (p.1, p.2.idx))
        = some (.success (e.video_urls.get? 0) (e.img_urls.get? 1), 1)) := by
  have step : ∀ (st : QQState) (d : RespData) (e : ExtraData),
      ((att st.idx).respOf).bind QQResp.data = some d →
      d.msg ≠ some "IMG_ILLEGAL" → d.code ≠ some 1001 → d.extra = some e →
      qqStep att st = .brk
        { st with idx := st.idx + 1, response := (att st.idx).respOf, data := some d,
                  retry := if d.msg = some "VOLUMN_LIMIT" then st.retry - 1 else st.retry,
                  sleptMs := if d.msg = some "VOLUMN_LIMIT" then st.sleptMs + rlBackoffMs
                             else st.sleptMs,
                  nonRL := if d.msg = some "VOLUMN_LIMIT" then st.nonRL else st.nonRL + 1 } := by
    intro st d e hd hmsg hcode he
    simp only [qqStep, hd, Option.some_bind, he, Option.isSome_some, if_true]
    rw [if_neg hmsg, if_neg hcode]
  refine ⟨step, ?_⟩
  intro d e img hd hmsg hcode he
  have h0 : qqInit.retry < 100 := by decide
  unfold qqRequest qqLoop
  rw [if_pos h0, step qqInit d e hd hmsg hcode he]
  simp [qqPost, he, qqInit]

/-- Witness for `qqRequest_success_envelope`: a first-attempt success
envelope yields the index-0 video URL and index-1 image URL after exactly
one attempt. -/
theorem qqRequest_success_envelope_witness :
    (qqRequest "img" (cannedAtt successPayload) 1).map (fun p => (p.1, p.2.idx))
      = some (.success (some "v0") (some "i1"), 1) :=
  (qqRequest_success_envelope (cannedAtt successPayload) 0).2
    successPayload ⟨["v0", "v1"], ["i0", "i1"]⟩ "img"
    (by decide) (by decide) (by decide) (by decide)

/-- C4: a rate-limited payload is a free retry.  The backoff constant is
3000 ms; one iteration on such a payload leaves the loop counter `retry`
unchanged (the `retry--` cancels the loop increment), consumes no
non-rate-limited attempt, adds one 3000 ms sleep, and continues; hence on
an unbounded stream of rate-limit responses the loop runs forever (the
runner yields `none` for every fuel budget), so `qqRequest` never reaches
the attempt-exhaustion error and rate-limiting never surfaces to the
caller. -/
theorem qqRequest_rate_limit_free (att : Nat → HttpAttempt QQResp)
    (d : RespData) (hd : ∀ i, ((att i).respOf).bind QQResp.data = some d)
    (hmsg : d.msg = some "VOLUMN_LIMIT") (hcode : d.code ≠ some 1001)
    (hext : d.extra = none) :
    rlBackoffMs = 3000 ∧
    (∀ st : QQState, qqStep att st = .next
      { st with idx := st.idx + 1, response := (att st.idx).respOf, data := some d,
                retry := st.retry, sleptMs := st.sleptMs + rlBackoffMs,
                nonRL := st.nonRL }) ∧
    (∀ (fuel : Nat) (st : QQState), st.retry < 100 → qqLoop att fuel st = none) ∧
    (∀ (img : String) (fuel : Nat), qqRequest img att fuel = none) := by
  have step : ∀ st : QQState, qqStep att st = .next
      { st with idx := st.idx + 1, response := (att st.idx).respOf, data := some d,
                retry := st.retry, sleptMs := st.sleptMs + rlBackoffMs,
                nonRL := st.nonRL } := by
    intro st
    have hne : d.msg ≠ some "IMG_ILLEGAL" := by rw [hmsg]; decide
    simp only [qqStep, hd st.idx, Option.some_bind, hext, Option.isSome_none]
    rw [if_neg hne, if_neg hcode]
    simp [hmsg, Int.sub_add_cancel]
  have loop : ∀ (fuel : Nat) (st : QQState), st.retry < 100 →
      qqLoop att fuel st = none := by
    intro fuel
    induction fuel with
    | zero => intro st _; rfl
    | succ f ih =>
      intro st h
      unfold qqLoop
      rw [if_pos h, step st]
      exact ih _ h
  exact ⟨rfl, step, loop, fun img fuel => by
    unfold qqRequest
    rw [loop fuel qqInit (by decide)]⟩

/-- Witness for `qqRequest_rate_limit_free`: a constant rate-limit stream
leaves `qqRequest` still retrying after 500 fuel steps. -/
theorem qqRequest_rate_limit_free_witness :
    qqRequest "img" (cannedAtt ratePayload) 500 = none :=
  (qqRequest_rate_limit_free (cannedAtt ratePayload) ratePayload
    (fun _ => rfl) rfl (by decide) rfl).2.2.2 "img" 500

/-! ## Attempt accounting for `qqRequest` -/

theorem qqStep_next_counters (att : Nat → HttpAttempt QQResp) (u v : QQState)
    (h : qqStep att u = .next v) :
    (v.retry = u.retry + 1 ∧ v.nonRL = u.nonRL + 1) ∨
    (v.retry = u.retry ∧ v.nonRL = u.nonRL) := by
  simp only [qqStep] at h
  split_ifs at h <;> simp_all
  all_goals try obtain ⟨-, h⟩ := h
  all_goals try simp

theorem qqStep_term_counters (att : Nat → HttpAttempt QQResp) (u : QQState) :
    (∀ r v, qqStep att u = .thrown r v → v.nonRL ≤ u.nonRL + 1) ∧
    (∀ v, qqStep att u = .brk v → v.nonRL ≤ u.nonRL + 1) := by
  constructor
  · intro r v h
    simp only [qqStep] at h
    split_ifs at h <;> simp_all
    all_goals try obtain ⟨-, h⟩ := h
    all_goals try subst h
    all_goals try simp
  · intro v h
    simp only [qqStep] at h
    split_ifs at h <;> simp_all
    all_goals try obtain ⟨-, h⟩ := h
    all_goals try simp

theorem qqLoop_nonRL_bound (att : Nat → HttpAttempt QQResp) :
    ∀ (fuel : Nat) (st : QQState) (ex : QQLoopExit) (stf : QQState),
      st.retry = (st.nonRL : Int) → st.retry ≤ 100 →
      qqLoop att fuel st = some (ex, stf) → stf.nonRL ≤ 100 := by
  intro fuel
  induction fuel with
  | zero => intro st ex stf _ _ h; cases h
  | succ f ih =>
    intro st ex stf hinv hle h
    unfold qqLoop at h
    by_cases hc : st.retry < 100
    · rw [if_pos hc] at h
      have hnr : st.nonRL < 100 := by exact_mod_cast hinv ▸ hc
      cases hs : qqStep att st with
      | thrown r u =>
        rw [hs] at h
        obtain ⟨hex, hu⟩ : QQLoopExit.thrown r = ex ∧ u = stf := by simpa using h
        subst hu
        have := (qqStep_term_counters att st).1 r u hs
        omega
      | brk u =>
        rw [hs] at h
        obtain ⟨hex, hu⟩ : QQLoopExit.finished = ex ∧ u = stf := by simpa using h
        subst hu
        have := (qqStep_term_counters att st).2 u hs
        omega
      | next u =>
        rw [hs] at h
        rcases qqStep_next_counters att st u hs with ⟨hr, hn⟩ | ⟨hr, hn⟩
        · refine ih u ex stf ?_ (by omega) h
          rw [hr, hn, hinv]
          push_cast
          ring
        · refine ih u ex stf ?_ (by omega) h
          rw [hr, hn]
          exact hinv
    · rw [if_neg hc] at h
      obtain ⟨hex, hst⟩ : QQLoopExit.finished = ex ∧ st = stf := by simpa using h
      subst hst
      omega

/-- One iteration on a payload matching none of the four markers: the
attempt is consumed (`retry` increments) and the loop continues, with
`response` and `data` overwritten by this attempt. -/
theorem qqStep_unrecognized (att : Nat → HttpAttempt QQResp) (st : QQState)
    (hmsg1 : (((att st.idx).respOf.bind QQResp.data).bind RespData.msg) ≠ some "IMG_ILLEGAL")
    (hmsg2 : (((att st.idx).respOf.bind QQResp.data).bind RespData.msg) ≠ some "VOLUMN_LIMIT")
    (hcode : (((att st.idx).respOf.bind QQResp.data).bind RespData.code) ≠ some 1001)
    (hext : (((att st.idx).respOf.bind QQResp.data).bind RespData.extra) = none) :
    qqStep att st = .next
      { st with idx := st.idx + 1, response := (att st.idx).respOf,
                data := (att st.idx).respOf.bind QQResp.data,
                retry := st.retry + 1, nonRL := st.nonRL + 1 } := by
  simp only [qqStep]
  rw [if_neg hmsg1, if_neg hcode, if_neg hmsg2]
  simp [hext, hmsg2]

/-- Running the loop on a stream of unrecognized payloads from a state
with `retry + k = 100` (`k ≥ 1`): the loop performs exactly `k` more
attempts and exits normally with `response` and `data` those of the final
attempt. -/
theorem qqLoop_unrecognized_run (att : Nat → HttpAttempt QQResp)
    (hall : ∀ i, (((att i).respOf.bind QQResp.data).bind RespData.msg) ≠ some "IMG_ILLEGAL" ∧
      (((att i).respOf.bind QQResp.data).bind RespData.msg) ≠ some "VOLUMN_LIMIT" ∧
      (((att i).respOf.bind QQResp.data).bind RespData.code) ≠ some 1001 ∧
      (((att i).respOf.bind QQResp.data).bind RespData.extra) = none) :
    ∀ (k : Nat) (st : QQState), 1 ≤ k → st.retry + (k : Int) = 100 →
      ∃ stf, qqLoop att (k + 1) st = some (.finished, stf) ∧
        stf.response = (att (st.idx + k - 1)).respOf ∧
        stf.data = (att (st.idx + k - 1)).respOf.bind QQResp.data := by
  intro k
  induction k with
  | zero => intro st h1 _; omega
  | succ k ih =>
    intro st _ hretry
    have hc : st.retry < 100 := by omega
    obtain ⟨m1, m2, m3, m4⟩ := hall st.idx
    have hstep := qqStep_unrecognized att st m1 m2 m3 m4
    rcases Nat.eq_zero_or_pos k with rfl | hk
    · have hloop : qqLoop att 2 st = some (.finished,
          { st with idx := st.idx + 1, response := (att st.idx).respOf,
                    data := (att st.idx).respOf.bind QQResp.data,
                    retry := st.retry + 1, nonRL := st.nonRL + 1 }) := by
        unfold qqLoop
        rw [if_pos hc, hstep]
        unfold qqLoop
        rw [if_neg (by simp; omega)]
      exact ⟨_, hloop, by simp, by simp⟩
    · obtain ⟨stf, hrun, hresp, hdata⟩ := ih
        { st with idx := st.idx + 1, response := (att st.idx).respOf,
                  data := (att st.idx).respOf.bind QQResp.data,
                  retry := st.retry + 1, nonRL := st.nonRL + 1 }
        hk (by simp; omega)
      refine ⟨stf, ?_, ?_, ?_⟩
      · show qqLoop att (k + 1 + 1) st = _
        unfold qqLoop
        rw [if_pos hc, hstep]
        exact hrun
      · simpa [Nat.add_sub_cancel, show st.idx + 1 + k - 1 = st.idx + (k + 1) - 1 by omega]
          using hresp
      · simpa [show st.idx + 1 + k - 1 = st.idx + (k + 1) - 1 by omega] using hdata

/-- C7: `qqRequest` consumes at most 100 non-rate-limited attempts in any
terminating run, and on a stream of 100 unrecognized payloads it exits the
loop after exactly the ceiling and throws the exhaustion error embedding
`response?.data` of the last (100th) attempt. -/
theorem qqRequest_attempt_ceiling (att : Nat → HttpAttempt QQResp) :
    (∀ (img : String) (fuel : Nat) (r : QQResult) (stf : QQState),
      qqRequest img att fuel = some (r, stf) → stf.nonRL ≤ 100) ∧
    ((∀ i, (((att i).respOf.bind QQResp.data).bind RespData.msg) ≠ some "IMG_ILLEGAL" ∧
        (((att i).respOf.bind QQResp.data).bind RespData.msg) ≠ some "VOLUMN_LIMIT" ∧
        (((att i).respOf.bind QQResp.data).bind RespData.code) ≠ some 1001 ∧
        (((att i).respOf.bind QQResp.data).bind RespData.extra) = none) →
      ∀ img : String, (qqRequest img att 101).map Prod.fst
        = some (.exhausted ((att 99).respOf.bind QQResp.data))) := by
  constructor
  · intro img fuel r stf h
    unfold qqRequest at h
    cases hl : qqLoop att fuel qqInit with
    | none => rw [hl] at h; cases h
    | some p =>
      obtain ⟨ex, st1⟩ := p
      have hb := qqLoop_nonRL_bound att fuel qqInit ex st1 (by decide) (by decide) hl
      rw [hl] at h
      cases ex with
      | thrown r0 =>
        obtain ⟨-, hst⟩ : r0 = r ∧ st1 = stf := by simpa using h
        exact hst ▸ hb
      | finished =>
        obtain ⟨-, hst⟩ : qqPost st1 = r ∧ st1 = stf := by simpa using h
        exact hst ▸ hb
  · intro hall img
    obtain ⟨stf, hrun, hresp, hdata⟩ :=
      qqLoop_unrecognized_run att hall 100 qqInit (by omega) (by decide)
    unfold qqRequest
    rw [show (101 : Nat) = 100 + 1 from rfl, hrun]
    have hpost : qqPost stf = .exhausted ((att 99).respOf.bind QQResp.data) := by
      unfold qqPost
      have hex : stf.data.bind RespData.extra = none := by
        rw [hdata]
        exact (hall 99).2.2.2
      rw [hex, hresp]
      norm_num [qqInit]
    simp [hpost]

theorem cannedAtt_unrec_spec (i : Nat) :
    ((cannedAtt unrecPayload i).respOf.bind QQResp.data).bind RespData.msg ≠ some "IMG_ILLEGAL" ∧
    ((cannedAtt unrecPayload i).respOf.bind QQResp.data).bind RespData.msg ≠ some "VOLUMN_LIMIT" ∧
    ((cannedAtt unrecPayload i).respOf.bind QQResp.data).bind RespData.code ≠ some 1001 ∧
    ((cannedAtt unrecPayload i).respOf.bind QQResp.data).bind RespData.extra = none := by
  simp [cannedAtt, HttpAttempt.respOf, unrecPayload]

/-- Witness for `qqRequest_attempt_ceiling`: a terminating run consumes at
most 100 attempts, and a constant unrecognized stream exits the loop at
the ceiling, throwing the exhaustion error embedding the last payload. -/
theorem qqRequest_attempt_ceiling_witness :
    (⟨0, 1, some ⟨some successPayload⟩, some successPayload, 1, 0⟩ : QQState).nonRL ≤ 100 ∧
    (qqRequest "img" (cannedAtt unrecPayload) 101).map Prod.fst
      = some (.exhausted (some unrecPayload)) :=
  ⟨(qqRequest_attempt_ceiling (cannedAtt successPayload)).1 "img" 1
      (.success (some "v0") (some "i1"))
      ⟨0, 1, some ⟨some successPayload⟩, some successPayload, 1, 0⟩ (by decide),
   (qqRequest_attempt_ceiling (cannedAtt unrecPayload)).2 cannedAtt_unrec_spec "img"⟩

/-! ## Single-flight session registry -/

theorem tryAdmit_eq (u : Int) (p : String) (l : List Session) :
    tryAdmit u p l = if userActive u l then (false, l) else (true, l ++ [⟨u, p⟩]) := by
  unfold tryAdmit userActive
  cases l.find? (fun s => s.userId == u) <;> simp

theorem userActive_false_of_countZero (u : Int) (l : List Session)
    (h : countUser u l = 0) : userActive u l = false := by
  unfold userActive
  cases hf : l.find? (fun s => s.userId == u) with
  | none => rfl
  | some s =>
    have hmem := List.mem_of_find?_eq_some hf
    have hp := List.find?_some hf
    have := (List.countP_eq_zero.mp h) s hmem
    simp [hp] at this

theorem spliceOne_zero_cons {α : Type} (a : α) (l : List α) :
    spliceOne (a :: l) 0 = l := by
  simp [spliceOne]

theorem spliceOne_cons_succ {α : Type} (a : α) (l : List α) (i : Nat) :
    spliceOne (a :: l) ((i : Int) + 1) = a :: spliceOne l (i : Int) := by
  unfold spliceOne
  have h1 : ¬((i : Int) + 1 < 0) := by omega
  have h2 : ((i : Int) + 1).toNat = i + 1 := by omega
  have h3 : ¬((i : Int) < 0) := by omega
  have h4 : ((i : Int)).toNat = i := by omega
  simp [h1, h2, h3, h4, List.take_succ_cons, List.drop_succ_cons]

theorem spliceOne_sublist {α : Type} (l : List α) (s : Int) :
    (spliceOne l s).Sublist l := by
  unfold spliceOne
  set k : Nat := if s < 0 then l.length - s.natAbs else s.toNat with hk
  have h1 : (l.drop (k + 1)).Sublist (l.drop k) := by
    rw [← List.drop_drop 1 k l, List.drop_one]
    exact List.tail_sublist _
  calc (l.take k ++ l.drop (k + 1)).Sublist (l.take k ++ l.drop k) :=
        h1.append_left (l.take k)
    _ = l := List.take_append_drop k l

theorem releaseUser_head_match (u : Int) (a : Session) (l : List Session)
    (ha : (a.userId == u) = true) : releaseUser u (a :: l) = l := by
  unfold releaseUser jsFindIndex
  rw [List.findIdx?_cons, if_pos ha]
  exact spliceOne_zero_cons a l

theorem releaseUser_head_skip (u : Int) (a : Session) (l : List Session) (i : Nat)
    (ha : (a.userId == u) = false)
    (hi : l.findIdx? (fun s => s.userId == u) = some i) :
    releaseUser u (a :: l) = a :: releaseUser u l := by
  unfold releaseUser jsFindIndex
  rw [List.findIdx?_cons, if_neg (by simp [ha]), List.findIdx?_succ, hi]
  simpa using spliceOne_cons_succ a l i

theorem userActive_releaseUser_self (u : Int) :
    ∀ l : List Session, countUser u l ≤ 1 → userActive u l = true →
      userActive u (releaseUser u l) = false := by
  intro l
  induction l with
  | nil => intro _ h; simp [userActive] at h
  | cons a l ih =>
    intro hcount hact
    by_cases ha : (a.userId == u) = true
    · rw [releaseUser_head_match u a l ha]
      refine userActive_false_of_countZero u l ?_
      have : countUser u (a :: l) = countUser u l + 1 := by
        simp [countUser, List.countP_cons, ha]
      omega
    · have ha' : (a.userId == u) = false := by simpa using ha
      have hact' : userActive u l = true := by
        unfold userActive at hact ⊢
        rw [List.find?_cons] at hact
        simpa [ha'] using hact
      cases hi : l.findIdx? (fun s => s.userId == u) with
      | none =>
        exfalso
        have hnone : l.find? (fun s => s.userId == u) = none :=
          List.find?_eq_none.mpr fun x hx => by
            have := (List.findIdx?_eq_none_iff.mp hi) x hx
            simp [this]
        unfold userActive at hact'
        rw [hnone] at hact'
        cases hact'
      | some i =>
        rw [releaseUser_head_skip u a l i ha' hi]
        have hc : countUser u l ≤ 1 := by
          have : countUser u (a :: l) = countUser u l := by
            simp [countUser, List.countP_cons, ha']
          omega
        have := ih hc hact'
        unfold userActive at this ⊢
        rw [List.find?_cons]
        simpa [ha'] using this

/-- C1: single flight per user.  (i) while a session for `u` is in the
registry, a second admission is rejected and the registry is unchanged;
(ii) admission preserves the at-most-one-entry-per-user invariant;
(iii) release preserves it; (iv) under the invariant, once the run for `u`
releases its session, a fresh admission for `u` succeeds again. -/
theorem registry_single_flight :
    (∀ (u : Int) (p : String) (l : List Session),
      userActive u l = true → tryAdmit u p l = (false, l)) ∧
    (∀ (u : Int) (p : String) (l : List Session),
      atMostOnePer l → atMostOnePer (tryAdmit u p l).2) ∧
    (∀ (u : Int) (l : List Session),
      atMostOnePer l → atMostOnePer (releaseUser u l)) ∧
    (∀ (u : Int) (p : String) (l : List Session),
      atMostOnePer l → userActive u l = true →
      (tryAdmit u p (releaseUser u l)).1 = true) := by
  refine ⟨?_, ?_, ?_, ?_⟩
  · intro u p l h
    rw [tryAdmit_eq, if_pos h]
  · intro u p l hinv
    rw [tryAdmit_eq]
    by_cases h : userActive u l = true
    · rw [if_pos h]; exact hinv
    · rw [if_neg h]
      intro v
      unfold countUser
      rw [List.countP_append]
      have hsingle : List.countP (fun s => s.userId == v) [(⟨u, p⟩ : Session)]
          = if (u == v) = true then 1 else 0 := by
        simp [List.countP_cons]
      by_cases huv : (u == v) = true
      · obtain rfl : u = v := by simpa using huv
        have hfalse : userActive u l = false := by simpa using h
        unfold userActive at hfalse
        have hnone : l.find? (fun s => s.userId == u) = none := by
          cases hf : l.find? (fun s => s.userId == u) with
          | none => rfl
          | some s => rw [hf] at hfalse; cases hfalse
        have hzero : List.countP (fun s => s.userId == u) l = 0 :=
          List.countP_eq_zero.mpr (List.find?_eq_none.mp hnone)
        rw [hsingle, if_pos huv, hzero]
      · rw [hsingle, if_neg huv]
        have := hinv v
        unfold countUser at this
        omega
  · intro u l hinv v
    have hsub : (releaseUser u l).Sublist l := spliceOne_sublist l _
    have := hsub.countP_le (fun s => s.userId == v)
    have := hinv v
    unfold countUser at this ⊢
    omega
  · intro u p l hinv hact
    have hoff : userActive u (releaseUser u l) = false :=
      userActive_releaseUser_self u l (hinv u) hact
    rw [tryAdmit_eq, if_neg (by simp [hoff])]

/-- Witness for `registry_single_flight` on a concrete registry: user 5 is
rejected while active, the invariant is preserved by admitting user 7 and
by releasing user 5, and user 5 is admitted again after release. -/
theorem registry_single_flight_witness :
    tryAdmit 5 "p2" [⟨5, "p1"⟩, ⟨6, "q"⟩] = (false, [⟨5, "p1"⟩, ⟨6, "q"⟩]) ∧
    atMostOnePer (tryAdmit 7 "r" [⟨5, "p1"⟩, ⟨6, "q"⟩]).2 ∧
    atMostOnePer (releaseUser 5 [⟨5, "p1"⟩, ⟨6, "q"⟩]) ∧
    (tryAdmit 5 "p2" (releaseUser 5 [⟨5, "p1"⟩, ⟨6, "q"⟩])).1 = true := by
  have hinv : atMostOnePer [⟨5, "p1"⟩, ⟨6, "q"⟩] := by
    intro v
    simp only [countUser, List.countP_cons, List.countP_nil]
    by_cases h5 : ((5 : Int) == v) = true
    · obtain rfl : (5 : Int) = v := by simpa using h5
      simp
    · by_cases h6 : ((6 : Int) == v) = true
      · obtain rfl : (6 : Int) = v := by simpa using h6
        simp
      · simp [Session.userId, h5, h6]
  exact ⟨registry_single_flight.1 5 "p2" [⟨5, "p1"⟩, ⟨6, "q"⟩] (by decide),
    registry_single_flight.2.1 7 "r" [⟨5, "p1"⟩, ⟨6, "q"⟩] hinv,
    registry_single_flight.2.2.1 5 [⟨5, "p1"⟩, ⟨6, "q"⟩] hinv,
    registry_single_flight.2.2.2 5 "p2" [⟨5, "p1"⟩, ⟨6, "q"⟩] hinv (by decide)⟩

/-! ## Orchestration cleanup -/

/-- C8: whenever an orchestration run exits (success, terminal remote
rejection, exhausted retries, or any thrown error at any step), the
session-release code runs exactly once and the final registry is
`releaseUser userId registry`; a failed run carries exactly one error
notification attempt, a successful run none; and the outcome of the
error notification (`errReplyOk`) affects nothing but the recorded
notification flag — its failure is swallowed. -/
theorem processUserSession_always_releases (env : Env) (fuel : Nat)
    (userId : Int) (registry : List Session) :
    (∀ res, processUserSession env fuel userId registry = some res →
      res.registry = releaseUser userId registry ∧
      res.releases = 1 ∧
      (res.ok = false → res.err.isSome = true ∧ res.errNotify = some env.errReplyOk) ∧
      (res.ok = true → res.err = none ∧ res.errNotify = none)) ∧
    (∀ b : Bool,
      (processUserSession { env with errReplyOk := b } fuel userId registry).map
          (fun r => (r.ok, r.err, r.releases, r.registry))
        = (processUserSession env fuel userId registry).map
          (fun r => (r.ok, r.err, r.releases, r.registry))) := by
  constructor
  · intro res hres
    unfold processUserSession at hres
    cases htb : tryBlock env fuel with
    | none => rw [htb] at hres; cases hres
    | some out =>
      rw [htb] at hres
      cases out with
      | ok a =>
        obtain rfl : (⟨true, none, none, 1, releaseUser userId registry⟩ : RunResult)
            = res := by simpa using hres
        exact ⟨rfl, rfl, by simp, by simp⟩
      | error e =>
        obtain rfl : (⟨false, some e, some env.errReplyOk, 1,
            releaseUser userId registry⟩ : RunResult) = res := by simpa using hres
        exact ⟨rfl, rfl, by simp, by simp⟩
  · intro b
    have ht : tryBlock { env with errReplyOk := b } fuel = tryBlock env fuel := rfl
    unfold processUserSession
    rw [ht]
    cases tryBlock env fuel with
    | none => rfl
    | some out => cases out <;> rfl

/-- A fully successful external world: the file link resolves, the first
source attempt returns a body, the remote service answers with a success
envelope at once, both artifact downloads succeed, every reply resolves. -/
def envOK : Env :=
  ⟨.ok "url", fun _ => .ok ⟨some "img"⟩, true, cannedAtt successPayload, true,
   fun _ => .ok ⟨some "vid"⟩, fun _ => .ok ⟨some "pic"⟩, true, true, true, true⟩

/-- Witness for `processUserSession_always_releases`: the fully successful
run for user 42 releases the singleton registry entry exactly once and
sends no error notification. -/
theorem processUserSession_always_releases_witness :
    (⟨true, none, none, 1, []⟩ : RunResult).registry = releaseUser 42 [⟨42, "ph"⟩] ∧
    (⟨true, none, none, 1, []⟩ : RunResult).releases = 1 ∧
    ((⟨true, none, none, 1, []⟩ : RunResult).ok = false →
      (⟨true, none, none, 1, []⟩ : RunResult).err.isSome = true ∧
      (⟨true, none, none, 1, []⟩ : RunResult).errNotify = some envOK.errReplyOk) ∧
    ((⟨true, none, none, 1, []⟩ : RunResult).ok = true →
      (⟨true, none, none, 1, []⟩ : RunResult).err = none ∧
      (⟨true, none, none, 1, []⟩ : RunResult).errNotify = none) :=
  (processUserSession_always_releases envOK 2 42 [⟨42, "ph"⟩]).1
    ⟨true, none, none, 1, []⟩ rfl

/-! ## The source-image guard -/

theorem srcGo_all_err (att : Nat → HttpAttempt DResp) :
    ∀ (fuel idx : Nat) (resp : Option DResp),
      (∀ i, idx ≤ i → i < idx + fuel → (att i).isErr = true) →
      srcGo att fuel idx resp = resp := by
  intro fuel
  induction fuel with
  | zero => intro idx resp _; rfl
  | succ f ih =>
    intro idx resp hall
    have hidx : (att idx).isErr = true := hall idx (le_refl idx) (by omega)
    unfold srcGo
    cases hatt : att idx with
    | ok r => rw [hatt] at hidx; cases hidx
    | err r =>
      simp only
      by_cases hd : (resp.bind DResp.data).isSome = true
      · rw [if_pos hd]
      · rw [if_neg hd]
        exact ih (idx + 1) resp fun i h1 h2 => hall i (by omega) (by omega)

theorem srcGo_isSome_persist (att : Nat → HttpAttempt DResp) :
    ∀ (fuel idx : Nat) (resp : Option DResp), resp.isSome = true →
      (srcGo att fuel idx resp).isSome = true := by
  intro fuel
  induction fuel with
  | zero => intro idx resp h; exact h
  | succ f ih =>
    intro idx resp h
    unfold srcGo
    cases att idx with
    | ok r =>
      simp only
      by_cases hd : ((some r).bind DResp.data).isSome = true
      · rw [if_pos hd]; rfl
      · rw [if_neg hd]; exact ih (idx + 1) (some r) rfl
    | err r =>
      simp only
      by_cases hd : (resp.bind DResp.data).isSome = true
      · rw [if_pos hd]; exact h
      · rw [if_neg hd]; exact ih (idx + 1) resp h

theorem srcGo_isSome_of_ok (att : Nat → HttpAttempt DResp) :
    ∀ (fuel idx : Nat) (resp : Option DResp) (j : Nat), idx ≤ j → j < idx + fuel →
      (att j).isErr = false → (srcGo att fuel idx resp).isSome = true := by
  intro fuel
  induction fuel with
  | zero => intro idx resp j h1 h2 _; omega
  | succ f ih =>
    intro idx resp j h1 h2 hok
    unfold srcGo
    cases hatt : att idx with
    | ok r =>
      simp only
      by_cases hd : ((some r).bind DResp.data).isSome = true
      · rw [if_pos hd]; rfl
      · rw [if_neg hd]; exact srcGo_isSome_persist att f (idx + 1) (some r) rfl
    | err r =>
      have hj : idx + 1 ≤ j := by
        rcases Nat.lt_or_ge idx (j + 1) with h | h
        · rcases Nat.eq_or_lt_of_le h1 with rfl | h'
          · rw [hatt] at hok; cases hok
          · omega
        · omega
      simp only
      by_cases hd : (resp.bind DResp.data).isSome = true
      · rw [if_pos hd]
        cases hre : resp with
        | none => rw [hre] at hd; cases hd
        | some x => rfl
      · rw [if_neg hd]
        exact ih (idx + 1) resp j hj (by omega) hok

theorem srcFetch_none_iff (att : Nat → HttpAttempt DResp) :
    srcFetch att = none ↔ ∀ i, i < 100 → (att i).isErr = true := by
  constructor
  · intro h i hi
    by_contra hok
    have hok' : (att i).isErr = false := by simpa using hok
    have := srcGo_isSome_of_ok att 100 0 none i (Nat.zero_le i) (by omega) hok'
    rw [srcFetch] at h
    rw [h] at this
    cases this
  · intro hall
    unfold srcFetch
    exact srcGo_all_err att 100 0 none fun i h1 h2 => hall i (by omega)

theorem srcGo_all_ok_empty (att : Nat → HttpAttempt DResp)
    (hall : ∀ i, att i = .ok ⟨none⟩) :
    ∀ (fuel idx : Nat) (resp : Option DResp), 1 ≤ fuel →
      srcGo att fuel idx resp = some ⟨none⟩ := by
  intro fuel
  induction fuel with
  | zero => intro idx resp h; omega
  | succ f ih =>
    intro idx resp _
    unfold srcGo
    rw [hall idx]
    simp only [Option.bind, DResp.data, Option.isSome_none, Bool.false_eq_true, if_false]
    rcases Nat.eq_zero_or_pos f with rfl | hf
    · rfl
    · exact ih (idx + 1) (some ⟨none⟩) hf

theorem tryBlock_after_guard_ne_loadPhoto (env : Env) (fuel : Nat)
    (u : String) (resp : DResp)
    (hu : env.fileLink = .ok u) (hresp : srcFetch env.srcAtt = some resp) :
    tryBlock env fuel ≠ some (.error .loadPhoto) := by
  unfold tryBlock
  simp only [hu, hresp]
  by_cases h1 : env.reply1Ok = false
  · simp [h1]
  · rw [if_neg h1]
    cases hb : bufToStringBase64 resp.data with
    | error e => simp
    | ok b64 =>
      cases hq : qqRequest b64 env.qqAtt fuel with
      | none => simp [hq]
      | some pr =>
        obtain ⟨r, st⟩ := pr
        cases r with
        | censorship => simp [hq]
        | noFace => simp [hq]
        | exhausted d => simp [hq]
        | success v i =>
          simp only [hq]
          by_cases h2 : env.reply2Ok = false
          · simp [h2]
          · rw [if_neg h2]
            by_cases h3 : env.replyPhotoOk = false
            · simp [h3]
            · rw [if_neg h3]
              by_cases h4 : env.replyVideoOk = false
              · simp [h4]
              · rw [if_neg h4]
                by_cases h5 : env.replyDoneOk = false
                · simp [h5]
                · rw [if_neg h5]
                  simp

/-- C10: the guard after the source-image loop tests only that a response
object exists.  (i) If every attempt resolves with a bodyless response,
the loop ends with that response, the guard passes, and the run proceeds
to read the absent body — failing later with the `TypeError` of
`undefined.toString`, not with the load-photo error.  (ii) The
load-failure branch is taken exactly when every one of the 100 attempts
rejected without ever producing a response object. -/
theorem source_guard_checks_response_only (env : Env) (fuel : Nat) (u : String)
    (hu : env.fileLink = .ok u) (hr1 : env.reply1Ok = true) :
    ((∀ i, env.srcAtt i = .ok ⟨none⟩) →
      srcFetch env.srcAtt = some ⟨none⟩ ∧
      tryBlock env fuel = some (.error .typeErr)) ∧
    (tryBlock env fuel = some (.error .loadPhoto) ↔
      ∀ i, i < 100 → (env.srcAtt i).isErr = true) := by
  constructor
  · intro hall
    have hfetch : srcFetch env.srcAtt = some ⟨none⟩ :=
      srcGo_all_ok_empty env.srcAtt hall 100 0 none (by omega)
    refine ⟨hfetch, ?_⟩
    unfold tryBlock
    simp [hu, hfetch, hr1, bufToStringBase64]
  · constructor
    · intro h
      rw [← srcFetch_none_iff]
      cases hf : srcFetch env.srcAtt with
      | none => rfl
      | some resp => exact absurd h (tryBlock_after_guard_ne_loadPhoto env fuel u resp hu hf)
    · intro hall
      have hfetch : srcFetch env.srcAtt = none := (srcFetch_none_iff env.srcAtt).mpr hall
      unfold tryBlock
      simp [hu, hfetch]

/-- Witness for `source_guard_checks_response_only`: with every attempt
returning a bodyless response, the run passes the guard and fails with the
`TypeError`, and the load-photo branch requires all attempts to reject. -/
theorem source_guard_checks_response_only_witness :
    (srcFetch (fun _ => .ok ⟨none⟩) = some ⟨none⟩ ∧
      tryBlock { envOK with srcAtt := fun _ => .ok ⟨none⟩ } 2
        = some (.error .typeErr)) ∧
    (tryBlock { envOK with srcAtt := fun _ => .ok ⟨none⟩ } 2
        = some (.error .loadPhoto) ↔
      ∀ i, i < 100 → ((fun _ => (.ok ⟨none⟩ : HttpAttempt DResp)) i).isErr = true) :=
  ⟨(source_guard_checks_response_only { envOK with srcAtt := fun _ => .ok ⟨none⟩ }
      2 "url" rfl rfl).1 (fun _ => rfl),
   (source_guard_checks_response_only { envOK with srcAtt := fun _ => .ok ⟨none⟩ }
      2 "url" rfl rfl).2⟩

end QQBot
